import Mathlib

/-!
Verification of the LRC editor core (`lrc_editor.py`): timestamp
formatting and parsing, the document editing operations, the
closest-timestamp synchronisation scan, and the player-position query.

Modelling conventions:
* Python floats are modelled as exact rationals (`ℚ`).  All claim
  evaluations happen at values exactly representable to two decimal
  places, where float arithmetic and `%.2f` formatting introduce no
  observable deviation beyond the stated 0.01 s tolerances.
* Python strings are modelled as `String` / `List Char`.  The f-string
  formatting `[{minutes:02d}:{seconds:05.2f}]` and `float()` parsing are
  modelled at the character level.  `float()` is modelled on plain
  decimal literals (optional sign, digits, optional fractional part);
  Python additionally strips whitespace and accepts exponent forms,
  which never occur in the timestamp strings manipulated here.
* DBus calls are effectful; `get_player_position` is modelled as a pure
  function of an abstract player environment recording whether the
  connection is usable, the playback status, and whether the two
  property reads succeed (a failed read models a raised exception that
  the surrounding `try` swallows).
* A Python statement that raises an uncaught exception (`IndexError`
  from `split(']', 1)[1]` or an out-of-range `self.lines[...]`) is
  modelled by an `Option` result being `none`; the process dies there,
  so the partially mutated in-memory state is never observed again.
-/

namespace LRC

/-- A decimal digit character, '0' through '9'. -/
def isDigitCh (c : Char) : Bool := 48 ≤ c.toNat && c.toNat ≤ 57

/-- The character for a single decimal digit. -/
def digitChar (d : Nat) : Char := Char.ofNat (48 + d)

/-- Numeric value of a digit string (left fold, str-to-int semantics). -/
def digitsVal (l : List Char) : Nat :=
  l.foldl (fun acc c => acc * 10 + (c.toNat - 48)) 0

/-- Every character is a decimal digit. -/
def allDigits (l : List Char) : Bool := l.all isDigitCh

/-- Decimal digits of `n`, most significant first; empty for 0.
Fuel-based so that it is structural (any `fuel ≥ n` is enough). -/
def natCharsAux : Nat → Nat → List Char
  | 0, _ => []
  | fuel + 1, n => if n = 0 then [] else natCharsAux fuel (n / 10) ++ [digitChar (n % 10)]

/-- Python `str(n)` for a natural number. -/
def natToChars (n : Nat) : List Char := if n = 0 then ['0'] else natCharsAux n n

/-- Python `"%02d" % n` for a natural number: zero-pad to width 2. -/
def pad2Chars (n : Nat) : List Char := if n < 10 then '0' :: natToChars n else natToChars n

/-- Python `"%02d" % m` for an integer: the sign occupies width, so any
negative value of magnitude at least 1 is printed unpadded. -/
def int02dChars (m : ℤ) : List Char :=
  if m < 0 then '-' :: natToChars m.natAbs else pad2Chars m.toNat

/-- Characters strictly before the first occurrence of `c`; `none` when
`c` does not occur (models `str.index` raising `ValueError`). -/
def beforeChar (c : Char) : List Char → Option (List Char)
  | [] => none
  | x :: xs => if x = c then some [] else (beforeChar c xs).map (fun l => x :: l)

/-- Characters strictly after the first occurrence of `c`; `none` when
`c` does not occur (models `split(c, 1)` producing a single part, so
that indexing `[1]` raises `IndexError`). -/
def afterChar (c : Char) : List Char → Option (List Char)
  | [] => none
  | x :: xs => if x = c then some xs else afterChar c xs

/-- Python `str.split(c)` (no maxsplit): splitting the empty string
gives one empty part. -/
def splitOnChar (c : Char) : List Char → List (List Char)
  | [] => [[]]
  | x :: xs =>
    if x = c then [] :: splitOnChar c xs
    else
      match splitOnChar c xs with
      | [] => [[x]]
      | r :: rs => (x :: r) :: rs

/-- Python `float()` restricted to plain decimal literals:
`[sign] digits [. digits]` with at least one digit.  Covers every
string `extract_timestamp` feeds it in this development. -/
def py_float_core (l : List Char) : Option ℚ :=
  match splitOnChar '.' l with
  | [ip] => if ip ≠ [] ∧ allDigits ip = true then some (digitsVal ip) else none
  | [ip, fp] =>
    if (ip ≠ [] ∨ fp ≠ []) ∧ allDigits ip = true ∧ allDigits fp = true then
      some ((digitsVal ip : ℚ) + (digitsVal fp : ℚ) / 10 ^ fp.length)
    else none
  | _ => none

/-- Python `float()` with an optional leading sign. -/
def py_float (l : List Char) : Option ℚ :=
  match l with
  | [] => none
  | c :: rest =>
    if c = '-' then Option.map (fun q => -q) (py_float_core rest)
    else if c = '+' then py_float_core rest
    else py_float_core (c :: rest)

/-- Does the string start with a literal left bracket (`line.startswith('[')`)? -/
def startsLB (s : String) : Bool :=
  match s.data with
  | [] => false
  | c :: _ => decide (c = '[')

/-- format_timestamp (lrc_editor.py lines 245-249): seconds to the LRC
form `[mm:ss.xx]`.  `int(seconds // 60)` is the floor, `seconds % 60`
is the nonnegative Python float remainder, and `%05.2f` rounds to the
nearest centisecond (ties never arise at the values evaluated here). -/
def format_timestamp (seconds : ℚ) : String :=
  String.mk ('[' :: int02dChars ⌊seconds / 60⌋ ++ ':' ::
    pad2Chars ((round ((seconds - 60 * (⌊seconds / 60⌋ : ℤ)) * 100)).toNat / 100) ++ '.' ::
    pad2Chars ((round ((seconds - 60 * (⌊seconds / 60⌋ : ℤ)) * 100)).toNat % 100) ++ [']'])

/-- Combination step of extract_timestamp: `float(minutes) * 60 +
float(seconds)` when both conversions succeed, `-1` when either raises
`ValueError`. -/
def extract_parts2 : Option ℚ → Option ℚ → ℚ
  | some mv, some sv => mv * 60 + sv
  | _, _ => -1

/-- Unpacking step of extract_timestamp: `minutes, seconds =
timestamp.split(':')` succeeds only for exactly two parts, else the
unpacking raises `ValueError` (caught, yielding `-1`). -/
def extract_split : List (List Char) → ℚ
  | [mchars, schars] => extract_parts2 (py_float mchars) (py_float schars)
  | _ => -1

/-- Bracket step of extract_timestamp: `line[1:line.index(']')]`; a
missing `]` raises `ValueError` (caught, yielding `-1`). -/
def extract_after_bracket : Option (List Char) → ℚ
  | none => -1
  | some ts => extract_split (splitOnChar ':' ts)

/-- Character-level body of extract_timestamp (lrc_editor.py lines
367-376): seconds encoded in a leading `[mm:ss.xx]`, `-1` when the line
does not start with `[`, has no closing `]`, or the bracketed part is
not a `float():float()` pair. -/
def extract_data : List Char → ℚ
  | [] => -1
  | c :: rest => if c = '[' then extract_after_bracket (beforeChar ']' rest) else -1

/-- extract_timestamp (lrc_editor.py lines 367-376). -/
def extract_timestamp (line : String) : ℚ := extract_data line.data

/-- Playback status reported by the MPRIS player (`Unknown` is what
`get_playback_status` returns when the property read raises). -/
inductive PlaybackStatus where
  | Playing
  | Paused
  | Stopped
  | Unknown
  deriving DecidableEq

/-- Abstract state of the remote player connection for one
`get_player_position` call: whether a player object is already held,
whether `connect_player()` would succeed, the playback status, the
`Position` property read (`none` models a raised exception), and
whether the `Metadata` property read succeeds. -/
structure PlayerEnv where
  connected : Bool
  connect_ok : Bool
  status : PlaybackStatus
  position_us : Option ℤ
  metadata_ok : Bool
  deriving DecidableEq

/-- get_player_position (lrc_editor.py lines 215-243): `-1` when no
connection can be obtained, when the status is not Playing, or when
either property read raises; otherwise the position in seconds
(microseconds divided by 1,000,000). -/
def get_player_position (env : PlayerEnv) : ℚ :=
  if env.connected = false ∧ env.connect_ok = false then -1
  else if env.status ≠ PlaybackStatus.Playing then -1
  else
    match env.position_us with
    | none => -1
    | some us => if env.metadata_ok then (us : ℚ) / 1000000 else -1

/-- The mutable fields of class LRCEditor that the document claims
concern (the wall-clock field `last_timestamp_time` only feeds the
relative-time display and is omitted). -/
structure LRCEditor where
  lines : List String
  current_line : Nat
  modified : Bool
  last_timestamp : Option String
  last_timestamp_value : Option ℚ
  edit_mode : Bool
  deriving DecidableEq

/-- The replace-or-crash step of add_timestamp on a line starting with
`[` : `timestamp + line.split(']', 1)[1]`.  The argument is the result
of looking for the first `]`; its absence makes `[1]` raise
`IndexError` (modelled by `none`). -/
def add_timestamp_write_bracket (timestamp : String) : Option (List Char) → Option String
  | some rest => some (timestamp ++ String.mk rest)
  | none => none

/-- The line-rewrite step of add_timestamp (lrc_editor.py lines
259-264): replace an existing `[...]`-prefix, else prepend. -/
def add_timestamp_write (timestamp line : String) : Option String :=
  if startsLB line then add_timestamp_write_bracket timestamp (afterChar ']' line.data)
  else some (timestamp ++ line)

/-- The cursor-advance step of add_timestamp (lrc_editor.py lines
266-272): move to the next line if one exists, else append a new empty
line and move onto it. -/
def add_timestamp_advance (st1 : LRCEditor) : LRCEditor × Bool :=
  if st1.current_line < st1.lines.length - 1 then
    ({ st1 with current_line := st1.current_line + 1 }, true)
  else
    ({ st1 with lines := st1.lines ++ [""], current_line := st1.current_line + 1 }, true)

/-- The commit step of add_timestamp: store the rewritten cursor line
(or die on the `IndexError` modelled by `none`), record the timestamp
memory, set the modified flag, and advance the cursor. -/
def add_timestamp_finish (pos : ℚ) (st : LRCEditor) : Option String → Option (LRCEditor × Bool)
  | none => none
  | some nl =>
    some (add_timestamp_advance
      { st with
        lines := st.lines.set st.current_line nl
        last_timestamp := some (format_timestamp pos)
        last_timestamp_value := some pos
        modified := true })

/-- add_timestamp (lrc_editor.py lines 251-274).  The argument is the
value of `self.get_player_position()` at the call site; the `none` case
mirrors the (dead) `if position is not None` guard.  The outer `none`
result models the uncaught `IndexError` raised by `split(']', 1)[1]`
when the cursor line starts with `[` but contains no `]`, or by an
out-of-range cursor. -/
def add_timestamp (position : Option ℚ) (st : LRCEditor) : Option (LRCEditor × Bool) :=
  match position with
  | none => some (st, false)
  | some pos =>
    if h : st.current_line < st.lines.length then
      add_timestamp_finish pos st
        (add_timestamp_write (format_timestamp pos) (st.lines.get ⟨st.current_line, h⟩))
    else none

/-- The strip step of remove_timestamp (lrc_editor.py lines 285-290):
`parts = line.split(']', 1)`; everything after the first `]` when it
exists (`len(parts) > 1`), else the empty string. -/
def remove_strip (st : LRCEditor) : Option (List Char) → LRCEditor
  | some rest =>
    { st with lines := st.lines.set st.current_line (String.mk rest), modified := true }
  | none => { st with lines := st.lines.set st.current_line "", modified := true }

/-- remove_timestamp (lrc_editor.py lines 276-291): delete an empty
cursor line (unless it is the only line), else strip a leading
`[...]`-prefix, else do nothing.  `none` models the `IndexError` of an
out-of-range cursor. -/
def remove_timestamp (st : LRCEditor) : Option LRCEditor :=
  if h : st.current_line < st.lines.length then
    let line := st.lines.get ⟨st.current_line, h⟩
    if line = "" then
      if 1 < st.lines.length then
        let lines' := st.lines.eraseIdx st.current_line
        let cl' := if lines'.length ≤ st.current_line then lines'.length - 1 else st.current_line
        some { st with lines := lines', current_line := cl', modified := true }
      else some st
    else if startsLB line then some (remove_strip st (afterChar ']' line.data))
    else some st
  else none

/-- Cursor key `j` / down (lrc_editor.py line 506):
`current_line = min(current_line + 1, len(lines) - 1)`. -/
def move_cursor_down (st : LRCEditor) : LRCEditor :=
  { st with current_line := min (st.current_line + 1) (st.lines.length - 1) }

/-- Cursor key `k` / up (lrc_editor.py line 508):
`current_line = max(current_line - 1, 0)` (truncated subtraction). -/
def move_cursor_up (st : LRCEditor) : LRCEditor :=
  { st with current_line := st.current_line - 1 }

/-- Comparison of a candidate distance against the running best, whose
initial value `none` stands for `float('inf')`. -/
def ltInf (d : ℚ) : Option ℚ → Bool
  | none => true
  | some b => decide (d < b)

/-- The scan loop of move_to_closest_timestamp (lrc_editor.py lines
387-393): fold over the lines with their indices, keeping the best
(strictly smaller) distance and its line index. -/
def closest_scan (position : ℚ) : List String → Nat → Option ℚ → Nat → Option ℚ × Nat
  | [], _, bd, bl => (bd, bl)
  | l :: ls, i, bd, bl =>
    if 0 ≤ extract_timestamp l then
      if ltInf |extract_timestamp l - position| bd then
        closest_scan position ls (i + 1) (some |extract_timestamp l - position|) i
      else closest_scan position ls (i + 1) bd bl
    else closest_scan position ls (i + 1) bd bl

/-- move_to_closest_timestamp (lrc_editor.py lines 378-400).  The
argument is the polled player position; the Python return value is
`None` (here `none`) for a negative position, else whether the cursor
moved. -/
def move_to_closest_timestamp (position : ℚ) (st : LRCEditor) : LRCEditor × Option Bool :=
  if position < 0 then (st, none)
  else
    let r := closest_scan position st.lines 0 none st.current_line
    if r.2 ≠ st.current_line then ({ st with current_line := r.2 }, some true)
    else (st, some false)

/-- try_sync_position (lrc_editor.py lines 402-421).  The two arguments
are the two successive `get_player_position()` polls (the second one
happens inside `move_to_closest_timestamp`). -/
def try_sync_position (p1 p2 : ℚ) (st : LRCEditor) : LRCEditor × Option Bool :=
  if p1 < 0 then (st, some false)
  else if st.lines.any (fun l => decide (0 ≤ extract_timestamp l)) then
    move_to_closest_timestamp p2 st
  else (st, some false)

/-- load_lrc_from_current (lrc_editor.py lines 326-356).  `current_file`
is `self.current_file`; `file_lines` is `some` of the `readlines()`
result when the `.lrc` file exists, `none` when it does not.  In both
load branches the lines are replaced and the cursor reset to 0; note
that a missing file and an existing empty file both leave `lines = []`. -/
def load_lrc_from_current (current_file : Option String) (file_lines : Option (List String))
    (st : LRCEditor) : LRCEditor × Bool :=
  match current_file with
  | none => (st, false)
  | some _ =>
    match file_lines with
    | some ls => ({ st with lines := ls, current_line := 0 }, true)
    | none => ({ st with lines := [], current_line := 0 }, true)

/-- The document-content initialisation in main (lrc_editor.py line
555): `editor.lines = content if content else ['']`. -/
def main_load_lines (content : List String) : List String :=
  if content = [] then [""] else content

/-- The save gate in main (lrc_editor.py line 561):
`if result == 'save' and editor.modified`. -/
def save_gate (save_requested modified : Bool) : Bool := save_requested && modified

/-! ### Digit printing and parsing -/

lemma digitChar_toNat : ∀ d, d < 10 → (digitChar d).toNat = 48 + d := by decide

lemma isDigitCh_digitChar : ∀ d, d < 10 → isDigitCh (digitChar d) = true := by decide

lemma isDigitCh_sep (c : Char) (hc : isDigitCh c = true) :
    c ≠ ']' ∧ c ≠ ':' ∧ c ≠ '.' ∧ c ≠ '-' ∧ c ≠ '+' := by
  refine ⟨?_, ?_, ?_, ?_, ?_⟩ <;> rintro rfl <;> exact absurd hc (by decide)

lemma digitsVal_append_singleton (l : List Char) (c : Char) :
    digitsVal (l ++ [c]) = digitsVal l * 10 + (c.toNat - 48) := by
  simp [digitsVal, List.foldl_append]

lemma digitsVal_cons_zero (l : List Char) : digitsVal ('0' :: l) = digitsVal l := by
  have h : (0 : Nat) * 10 + ('0'.toNat - 48) = 0 := by decide
  simp only [digitsVal, List.foldl_cons, h]

lemma natCharsAux_zero (f : Nat) : natCharsAux f 0 = [] := by
  cases f <;> simp [natCharsAux]

lemma natCharsAux_spec :
    ∀ fuel n, n ≤ fuel →
      allDigits (natCharsAux fuel n) = true ∧ digitsVal (natCharsAux fuel n) = n := by
  intro fuel
  induction fuel with
  | zero =>
    intro n hn
    have : n = 0 := Nat.le_zero.mp hn
    subst this
    exact ⟨rfl, rfl⟩
  | succ f ih =>
    intro n hn
    by_cases h0 : n = 0
    · subst h0
      simp [natCharsAux, allDigits, digitsVal]
    · have hdiv : n / 10 ≤ f := by
        have : n / 10 < n := Nat.div_lt_self (Nat.pos_of_ne_zero h0) (by omega)
        omega
      obtain ⟨hall, hval⟩ := ih (n / 10) hdiv
      have hmod : n % 10 < 10 := Nat.mod_lt _ (by omega)
      constructor
      · simp only [allDigits] at hall
        simp [natCharsAux, if_neg h0, allDigits, hall, isDigitCh_digitChar _ hmod]
      · simp only [natCharsAux, if_neg h0, digitsVal_append_singleton, hval,
          digitChar_toNat _ hmod]
        omega

lemma natToChars_allDigits (n : Nat) : allDigits (natToChars n) = true := by
  by_cases h0 : n = 0
  · subst h0; decide
  · simp only [natToChars, if_neg h0]
    exact (natCharsAux_spec n n le_rfl).1

lemma natToChars_val (n : Nat) : digitsVal (natToChars n) = n := by
  by_cases h0 : n = 0
  · subst h0; decide
  · simp only [natToChars, if_neg h0]
    exact (natCharsAux_spec n n le_rfl).2

lemma natCharsAux_single (f n : Nat) (h1 : 1 ≤ n) (h2 : n < 10) :
    natCharsAux (f + 1) n = [digitChar n] := by
  have hd : n / 10 = 0 := Nat.div_eq_of_lt h2
  have hm : n % 10 = n := Nat.mod_eq_of_lt h2
  rw [natCharsAux, if_neg (by omega : ¬ n = 0), hd, natCharsAux_zero, hm]
  rfl

lemma natToChars_single (n : Nat) (h : n < 10) : natToChars n = [digitChar n] := by
  by_cases h0 : n = 0
  · subst h0; decide
  · obtain ⟨f, rfl⟩ : ∃ f, n = f + 1 := ⟨n - 1, by omega⟩
    simp only [natToChars, if_neg h0]
    exact natCharsAux_single f (f + 1) (by omega) h

lemma natToChars_two (n : Nat) (h1 : 10 ≤ n) (h2 : n < 100) :
    natToChars n = [digitChar (n / 10), digitChar (n % 10)] := by
  obtain ⟨f, rfl⟩ : ∃ f, n = f + 1 := ⟨n - 1, by omega⟩
  obtain ⟨g, rfl⟩ : ∃ g, f = g + 1 := ⟨f - 1, by omega⟩
  have hq1 : 1 ≤ (g + 1 + 1) / 10 := by omega
  have hq2 : (g + 1 + 1) / 10 < 10 := by omega
  simp only [natToChars, if_neg (by omega : ¬ g + 1 + 1 = 0)]
  rw [natCharsAux, if_neg (by omega : ¬ g + 1 + 1 = 0)]
  rw [natCharsAux_single g _ hq1 hq2]
  rfl

lemma pad2Chars_allDigits (n : Nat) : allDigits (pad2Chars n) = true := by
  by_cases h : n < 10
  · have h2 := natToChars_allDigits n
    simp only [allDigits] at h2
    have h0 : isDigitCh '0' = true := by decide
    simp [pad2Chars, if_pos h, allDigits, h2, h0]
  · simp only [pad2Chars, if_neg h]
    exact natToChars_allDigits n

lemma pad2Chars_val (n : Nat) : digitsVal (pad2Chars n) = n := by
  by_cases h : n < 10
  · simp only [pad2Chars, if_pos h, digitsVal_cons_zero]
    exact natToChars_val n
  · simp only [pad2Chars, if_neg h]
    exact natToChars_val n

lemma pad2Chars_length (n : Nat) (h : n < 100) : (pad2Chars n).length = 2 := by
  by_cases h1 : n < 10
  · simp only [pad2Chars, if_pos h1, List.length_cons]
    rw [natToChars_single n h1]
    rfl
  · simp only [pad2Chars, if_neg h1]
    rw [natToChars_two n (by omega) h]
    rfl

lemma pad2Chars_ne_nil (n : Nat) : pad2Chars n ≠ [] := by
  by_cases h : n < 10
  · simp [pad2Chars, if_pos h]
  · simp only [pad2Chars, if_neg h]
    obtain ⟨f, hf⟩ : ∃ f, n = f + 1 := ⟨n - 1, by omega⟩
    simp only [natToChars, if_neg (by omega : ¬ n = 0), hf]
    rw [natCharsAux, if_neg (by omega : ¬ f + 1 = 0)]
    simp

lemma allDigits_mem (l : List Char) (h : allDigits l = true) (c : Char) (hc : c ∈ l) :
    isDigitCh c = true := by
  simpa using (List.all_eq_true.mp h) c hc

lemma allDigits_not_mem (l : List Char) (h : allDigits l = true) (c : Char)
    (hc : isDigitCh c = false) : c ∉ l := by
  intro hmem
  rw [allDigits_mem l h c hmem] at hc
  cases hc

/-! ### Splitting and parsing lemmas -/

lemma beforeChar_cons_eq (c : Char) (xs : List Char) : beforeChar c (c :: xs) = some [] := by
  simp [beforeChar]

lemma beforeChar_cons_ne (c x : Char) (xs : List Char) (h : x ≠ c) :
    beforeChar c (x :: xs) = (beforeChar c xs).map (fun l => x :: l) := by
  simp [beforeChar, h]

lemma beforeChar_append_not_mem (c : Char) (a b : List Char) (ha : c ∉ a) :
    beforeChar c (a ++ b) = (beforeChar c b).map (fun l => a ++ l) := by
  induction a with
  | nil => simp
  | cons x xs ih =>
    have hx : x ≠ c := fun h => ha (h ▸ List.mem_cons_self x xs)
    have hxs : c ∉ xs := fun h => ha (List.mem_cons_of_mem x h)
    simp only [List.cons_append, beforeChar_cons_ne c x _ hx, ih hxs, Option.map_map]
    rfl

lemma splitOnChar_not_mem (c : Char) (l : List Char) (h : c ∉ l) :
    splitOnChar c l = [l] := by
  induction l with
  | nil => rfl
  | cons x xs ih =>
    have hx : ¬ x = c := fun hh => h (hh ▸ List.mem_cons_self x xs)
    have hxs : c ∉ xs := fun hh => h (List.mem_cons_of_mem x hh)
    rw [splitOnChar, if_neg hx, ih hxs]

lemma splitOnChar_sep (c : Char) (a b : List Char) (ha : c ∉ a) :
    splitOnChar c (a ++ c :: b) = a :: splitOnChar c b := by
  induction a with
  | nil => simp [splitOnChar]
  | cons x xs ih =>
    have hx : ¬ x = c := fun hh => ha (hh ▸ List.mem_cons_self x xs)
    have hxs : c ∉ xs := fun hh => ha (List.mem_cons_of_mem x hh)
    rw [List.cons_append, splitOnChar, if_neg hx, ih hxs]

lemma splitOnChar_pair (c : Char) (a b : List Char) (ha : c ∉ a) (hb : c ∉ b) :
    splitOnChar c (a ++ c :: b) = [a, b] := by
  rw [splitOnChar_sep c a b ha, splitOnChar_not_mem c b hb]

lemma py_float_core_int (l : List Char) (hne : l ≠ []) (hall : allDigits l = true) :
    py_float_core l = some (digitsVal l) := by
  have hdot : '.' ∉ l := allDigits_not_mem l hall '.' (by decide)
  rw [py_float_core, splitOnChar_not_mem '.' l hdot]
  simp [hne, hall]

lemma py_float_core_frac (a b : List Char) (hall_a : allDigits a = true)
    (hall_b : allDigits b = true) (hne : a ≠ []) :
    py_float_core (a ++ '.' :: b) = some ((digitsVal a : ℚ) + (digitsVal b : ℚ) / 10 ^ b.length) := by
  have hda : '.' ∉ a := allDigits_not_mem a hall_a '.' (by decide)
  have hdb : '.' ∉ b := allDigits_not_mem b hall_b '.' (by decide)
  rw [py_float_core, splitOnChar_pair '.' a b hda hdb]
  simp [hne, hall_a, hall_b]

lemma py_float_digit_head (l : List Char) (hne : l ≠ []) (hall : allDigits l = true) :
    py_float l = py_float_core l := by
  obtain ⟨c, rest, rfl⟩ := List.exists_cons_of_ne_nil hne
  have hc : isDigitCh c = true := allDigits_mem _ hall c (List.mem_cons_self c rest)
  obtain ⟨-, -, -, h4, h5⟩ := isDigitCh_sep c hc
  rw [py_float, if_neg h4, if_neg h5]

lemma py_float_pad2 (n : Nat) : py_float (pad2Chars n) = some ((n : ℕ) : ℚ) := by
  rw [py_float_digit_head _ (pad2Chars_ne_nil n) (pad2Chars_allDigits n),
    py_float_core_int _ (pad2Chars_ne_nil n) (pad2Chars_allDigits n), pad2Chars_val]
  rfl

lemma py_float_pad2_frac (i f : Nat) (hf : f < 100) :
    py_float (pad2Chars i ++ '.' :: pad2Chars f) =
      some ((i : ℚ) + (f : ℚ) / 100) := by
  have hne : pad2Chars i ++ '.' :: pad2Chars f ≠ [] := by
    cases h : pad2Chars i with
    | nil => exact absurd h (pad2Chars_ne_nil i)
    | cons x xs => simp [h]
  have hall : allDigits (pad2Chars i) = true := pad2Chars_allDigits i
  have hhead : py_float (pad2Chars i ++ '.' :: pad2Chars f) =
      py_float_core (pad2Chars i ++ '.' :: pad2Chars f) := by
    obtain ⟨c, rest, hcr⟩ := List.exists_cons_of_ne_nil (pad2Chars_ne_nil i)
    have hc : isDigitCh c = true := allDigits_mem _ hall c (hcr ▸ List.mem_cons_self c rest)
    obtain ⟨-, -, -, h4, h5⟩ := isDigitCh_sep c hc
    rw [hcr, List.cons_append, py_float, if_neg h4, if_neg h5]
  rw [hhead, py_float_core_frac _ _ hall (pad2Chars_allDigits f) (pad2Chars_ne_nil i),
    pad2Chars_val, pad2Chars_val, pad2Chars_length f hf]
  norm_num

/-! ### Formatting and extraction round-trip -/

lemma no_sep_of_allDigits (l : List Char) (h : allDigits l = true) :
    ']' ∉ l ∧ ':' ∉ l ∧ '.' ∉ l :=
  ⟨allDigits_not_mem l h ']' (by decide), allDigits_not_mem l h ':' (by decide),
    allDigits_not_mem l h '.' (by decide)⟩

lemma format_timestamp_eval (seconds : ℚ) (m : ℤ) (cs : ℤ)
    (h1 : ⌊seconds / 60⌋ = m)
    (h2 : round ((seconds - 60 * (m : ℚ)) * 100) = cs) :
    format_timestamp seconds =
      String.mk ('[' :: int02dChars m ++ ':' ::
        pad2Chars (cs.toNat / 100) ++ '.' :: pad2Chars (cs.toNat % 100) ++ [']']) := by
  simp only [format_timestamp, h1, h2]

lemma format_timestamp_neg_one : format_timestamp (-1) = "[-1:59.00]" := by
  rw [format_timestamp_eval (-1) (-1) 5900 (by norm_num) (by rw [round_eq]; norm_num)]
  decide

lemma beforeChar_timestamp (A B C tail : List Char)
    (hA : ']' ∉ A) (hB : ']' ∉ B) (hC : ']' ∉ C) :
    beforeChar ']' (A ++ ':' :: (B ++ '.' :: (C ++ ']' :: tail))) =
      some (A ++ ':' :: (B ++ '.' :: C)) := by
  rw [beforeChar_append_not_mem _ _ _ hA,
      beforeChar_cons_ne _ ':' _ (by decide),
      beforeChar_append_not_mem _ _ _ hB,
      beforeChar_cons_ne _ '.' _ (by decide),
      beforeChar_append_not_mem _ _ _ hC,
      beforeChar_cons_eq]
  simp

lemma extract_format (m k : ℕ) (hk : k < 6000) (suffix : String) :
    extract_timestamp (format_timestamp ((m : ℚ) * 60 + (k : ℚ) / 100) ++ suffix) =
      (m : ℚ) * 60 + (k : ℚ) / 100 := by
  have h1 : ⌊((m : ℚ) * 60 + (k : ℚ) / 100) / 60⌋ = (m : ℤ) := by
    have e : ((m : ℚ) * 60 + (k : ℚ) / 100) / 60 = (k : ℚ) / 6000 + (m : ℚ) := by ring
    rw [e, Int.floor_add_nat]
    have e0 : ⌊(k : ℚ) / 6000⌋ = 0 := by
      rw [Int.floor_eq_zero_iff]
      constructor
      · positivity
      · rw [div_lt_one (by norm_num)]
        exact_mod_cast hk
    rw [e0, zero_add]
  have h2 : round ((((m : ℚ) * 60 + (k : ℚ) / 100) - 60 * (((m : ℕ) : ℤ) : ℚ)) * 100)
      = ((k : ℕ) : ℤ) := by
    have e2 : (((m : ℚ) * 60 + (k : ℚ) / 100) - 60 * (((m : ℕ) : ℤ) : ℚ)) * 100 = (k : ℚ) := by
      push_cast
      ring
    rw [e2, round_natCast]
  rw [format_timestamp_eval ((m : ℚ) * 60 + (k : ℚ) / 100) (m : ℤ) (k : ℤ) h1 h2]
  simp only [Int.toNat_natCast]
  have hint : int02dChars (m : ℤ) = pad2Chars m := by
    rw [int02dChars, if_neg (Int.not_lt.mpr (Int.natCast_nonneg m)), Int.toNat_natCast]
  rw [hint]
  obtain ⟨hA1, hA2, hA3⟩ := no_sep_of_allDigits _ (pad2Chars_allDigits m)
  obtain ⟨hB1, hB2, hB3⟩ := no_sep_of_allDigits _ (pad2Chars_allDigits (k / 100))
  obtain ⟨hC1, hC2, hC3⟩ := no_sep_of_allDigits _ (pad2Chars_allDigits (k % 100))
  rw [extract_timestamp, String.data_append]
  simp only [List.append_assoc, List.cons_append, List.singleton_append]
  rw [extract_data, if_pos rfl,
    beforeChar_timestamp _ _ _ _ hA1 hB1 hC1, extract_after_bracket]
  have hno : ':' ∉ pad2Chars (k / 100) ++ '.' :: pad2Chars (k % 100) := by
    intro hmem
    rcases List.mem_append.mp hmem with h | h
    · exact hB2 h
    · rcases List.mem_cons.mp h with h | h
      · exact absurd h.symm (by decide)
      · exact hC2 h
  rw [splitOnChar_pair ':' _ _ hA2 hno, extract_split]
  rw [py_float_pad2, py_float_pad2_frac (k / 100) (k % 100) (Nat.mod_lt _ (by omega)),
    extract_parts2]
  have hdm : (100 : ℚ) * ((k / 100 : ℕ) : ℚ) + ((k % 100 : ℕ) : ℚ) = (k : ℚ) := by
    exact_mod_cast congrArg (fun n : ℕ => (n : ℚ)) (Nat.div_add_mod k 100)
  have h3 : ((k / 100 : ℕ) : ℚ) + ((k % 100 : ℕ) : ℚ) / 100 = (k : ℚ) / 100 := by
    field_simp
    linarith [hdm]
  rw [h3]

/-! ### Concrete timestamp evaluations -/

lemma extract_ts_ten : extract_timestamp "[00:10.00]" = 10 := by
  have h : extract_timestamp "[00:10.00]" =
      (digitsVal ['0', '0'] : ℚ) * 60 +
        ((digitsVal ['1', '0'] : ℚ) + (digitsVal ['0', '0'] : ℚ) / 10 ^ (['0', '0'] : List Char).length) := rfl
  have h1 : digitsVal ['0', '0'] = 0 := by decide
  have h2 : digitsVal ['1', '0'] = 10 := by decide
  rw [h, h1, h2]
  norm_num

lemma extract_ts_thirty : extract_timestamp "[00:30.00]" = 30 := by
  have h : extract_timestamp "[00:30.00]" =
      (digitsVal ['0', '0'] : ℚ) * 60 +
        ((digitsVal ['3', '0'] : ℚ) + (digitsVal ['0', '0'] : ℚ) / 10 ^ (['0', '0'] : List Char).length) := rfl
  have h1 : digitsVal ['0', '0'] = 0 := by decide
  have h2 : digitsVal ['3', '0'] = 30 := by decide
  rw [h, h1, h2]
  norm_num

/-! ### The closest-timestamp scan -/

lemma closest_scan_append (p : ℚ) (xs ys : List String) :
    ∀ i bd bl, closest_scan p (xs ++ ys) i bd bl =
      closest_scan p ys (i + xs.length) (closest_scan p xs i bd bl).1
        (closest_scan p xs i bd bl).2 := by
  induction xs with
  | nil => intro i bd bl; simp [closest_scan]
  | cons l ls ih =>
    intro i bd bl
    have harith : i + 1 + ls.length = i + (ls.length + 1) := by omega
    simp only [List.cons_append, closest_scan, List.append_eq, List.length_cons]
    split_ifs <;> rw [ih] <;> rw [harith]

lemma closest_scan_no_valid (p : ℚ) (xs : List String)
    (h : ∀ l ∈ xs, extract_timestamp l < 0) :
    ∀ i bd bl, closest_scan p xs i bd bl = (bd, bl) := by
  induction xs with
  | nil => intro i bd bl; rfl
  | cons l ls ih =>
    intro i bd bl
    have hl : ¬ 0 ≤ extract_timestamp l :=
      not_le.mpr (h l (List.mem_cons_self l ls))
    rw [closest_scan, if_neg hl]
    exact ih (fun x hx => h x (List.mem_cons_of_mem l hx)) _ _ _

lemma closest_scan_no_improve (p b : ℚ) (xs : List String)
    (h : ∀ l ∈ xs, 0 ≤ extract_timestamp l → b ≤ |extract_timestamp l - p|) :
    ∀ i bl, closest_scan p xs i (some b) bl = (some b, bl) := by
  induction xs with
  | nil => intro i bl; rfl
  | cons l ls ih =>
    intro i bl
    have ih' := ih (fun x hx => h x (List.mem_cons_of_mem l hx))
    by_cases hv : 0 ≤ extract_timestamp l
    · have hle : b ≤ |extract_timestamp l - p| := h l (List.mem_cons_self l ls) hv
      have hlt : ltInf |extract_timestamp l - p| (some b) = false := by
        simp [ltInf, not_lt.mpr hle]
      rw [closest_scan, if_pos hv, hlt]
      simp only [Bool.false_eq_true, if_false]
      exact ih' _ _
    · rw [closest_scan, if_neg hv]
      exact ih' _ _

lemma closest_scan_keeps_lt (p c : ℚ) (xs : List String)
    (h : ∀ l ∈ xs, 0 ≤ extract_timestamp l → c < |extract_timestamp l - p|) :
    ∀ i bd bl, ltInf c bd = true → ltInf c (closest_scan p xs i bd bl).1 = true := by
  induction xs with
  | nil => intro i bd bl hbd; exact hbd
  | cons l ls ih =>
    intro i bd bl hbd
    have ih' := ih (fun x hx => h x (List.mem_cons_of_mem l hx))
    by_cases hv : 0 ≤ extract_timestamp l
    · rw [closest_scan, if_pos hv]
      by_cases himp : ltInf |extract_timestamp l - p| bd = true
      · rw [if_pos himp]
        refine ih' _ _ _ ?_
        simp [ltInf, h l (List.mem_cons_self l ls) hv]
      · rw [if_neg himp]
        exact ih' _ _ _ hbd
    · rw [closest_scan, if_neg hv]
      exact ih' _ _ _ hbd

/-! ### Claim C1 -/

/-- C1: for every non-negative integer minutes and every seconds value
with 0 ≤ seconds < 60 representable to two decimal places (seconds =
k/100, k < 6000), extracting the timestamp from the line obtained by
formatting minutes*60+seconds, followed by arbitrary trailing text
after the closing bracket, returns minutes*60+seconds to within 0.01
seconds (the embedding recovers it exactly). -/
theorem timestamp_roundtrip (m k : ℕ) (hk : k < 6000) (suffix : String) :
    |extract_timestamp (format_timestamp ((m : ℚ) * 60 + (k : ℚ) / 100) ++ suffix) -
      ((m : ℚ) * 60 + (k : ℚ) / 100)| ≤ 1 / 100 := by
  rw [extract_format m k hk suffix, sub_self, abs_zero]
  norm_num

/-- Witness for C1 at minutes = 2, seconds = 5.40, trailing text "hello". -/
theorem timestamp_roundtrip_witness :
    (540 : ℕ) < 6000 ∧
      |extract_timestamp (format_timestamp (((2 : ℕ) : ℚ) * 60 + ((540 : ℕ) : ℚ) / 100) ++ "hello") -
        (((2 : ℕ) : ℚ) * 60 + ((540 : ℕ) : ℚ) / 100)| ≤ 1 / 100 :=
  ⟨by norm_num, timestamp_roundtrip 2 540 (by norm_num) "hello"⟩

/-! ### Claim C2 -/

/-- C2: move_to_closest_timestamp scans the lines in ascending index
order over exactly the lines with a valid timestamp and selects the
index minimising the absolute distance to the queried position, the
earliest index winning ties.  Formally: if the lines split as
`pre ++ lstar :: post` where `lstar` has a valid timestamp, every valid
line of `pre` is strictly farther from the position, and every valid
line of `post` is at least as far, then the cursor ends on `lstar`,
i.e. at index `pre.length`. -/
theorem closest_selects_earliest_min (p : ℚ) (st : LRCEditor) (pre post : List String)
    (lstar : String)
    (hl : st.lines = pre ++ lstar :: post) (hp : 0 ≤ p)
    (hv : 0 ≤ extract_timestamp lstar)
    (hpre : ∀ l ∈ pre, 0 ≤ extract_timestamp l →
      |extract_timestamp lstar - p| < |extract_timestamp l - p|)
    (hpost : ∀ l ∈ post, 0 ≤ extract_timestamp l →
      |extract_timestamp lstar - p| ≤ |extract_timestamp l - p|) :
    (move_to_closest_timestamp p st).1.current_line = pre.length := by
  have hlt : ltInf |extract_timestamp lstar - p|
      (closest_scan p pre 0 none st.current_line).1 = true :=
    closest_scan_keeps_lt p _ pre hpre 0 none st.current_line rfl
  have hscan : (closest_scan p st.lines 0 none st.current_line).2 = pre.length := by
    rw [hl, closest_scan_append, closest_scan, if_pos hv, if_pos hlt,
      closest_scan_no_improve p _ post hpost]
    simp
  simp only [move_to_closest_timestamp]
  rw [if_neg (not_lt.mpr hp), hscan]
  by_cases hcl : pre.length = st.current_line
  · rw [if_neg (by simpa using hcl)]
    exact hcl.symm
  · rw [if_pos hcl]

/-- Witness for C2: with timestamps [10, 30] and query position 20, the
tie is broken towards the earlier line: the cursor lands on index 0. -/
theorem closest_selects_witness :
    (move_to_closest_timestamp 20
      ⟨["[00:10.00]", "[00:30.00]"], 1, false, none, none, false⟩).1.current_line = 0 := by
  have habs10 : |extract_timestamp "[00:10.00]" - (20 : ℚ)| = 10 := by
    rw [extract_ts_ten]
    rw [abs_of_nonpos (by norm_num)]
    norm_num
  have habs30 : |extract_timestamp "[00:30.00]" - (20 : ℚ)| = 10 := by
    rw [extract_ts_thirty]
    rw [abs_of_nonneg (by norm_num)]
    norm_num
  exact closest_selects_earliest_min 20
    ⟨["[00:10.00]", "[00:30.00]"], 1, false, none, none, false⟩
    [] ["[00:30.00]"] "[00:10.00]" rfl (by norm_num)
    (by rw [extract_ts_ten]; norm_num)
    (by intro l hmem; exact absurd hmem (List.not_mem_nil l))
    (by
      intro l hmem hvalid
      rw [List.mem_singleton] at hmem
      subst hmem
      rw [habs10, habs30])

/-! ### Claim C3 -/

lemma move_to_closest_noop (st : LRCEditor)
    (H : ∀ l ∈ st.lines, extract_timestamp l < 0) (q : ℚ) :
    (move_to_closest_timestamp q st).1 = st := by
  simp only [move_to_closest_timestamp]
  by_cases hq : q < 0
  · rw [if_pos hq]
  · rw [if_neg hq, closest_scan_no_valid q st.lines H 0 none st.current_line]
    simp

lemma try_sync_noop (st : LRCEditor)
    (H : ∀ l ∈ st.lines, extract_timestamp l < 0) (p1 p2 : ℚ) :
    try_sync_position p1 p2 st = (st, some false) := by
  simp only [try_sync_position]
  by_cases hp1 : p1 < 0
  · rw [if_pos hp1]
  · have hany : st.lines.any (fun l => decide (0 ≤ extract_timestamp l)) = false := by
      rw [List.any_eq_false]
      intro x hx
      simpa using not_le.mpr (H x hx)
    rw [if_neg hp1, if_neg (by simp [hany])]

/-- C3: in a document in which no line carries a valid timestamp, any
number of sync-tick invocations (try_sync_position, or the periodic
move_to_closest_timestamp call of the run loop) leaves the cursor and
the whole state unchanged, and try_sync_position always reports "not
synced" (False). -/
theorem sync_no_timestamps (st : LRCEditor)
    (H : ∀ l ∈ st.lines, extract_timestamp l < 0)
    (p1 p2 q : ℚ) (ps qs : List ℚ) :
    try_sync_position p1 p2 st = (st, some false) ∧
    (move_to_closest_timestamp q st).1 = st ∧
    ps.foldl (fun s r => (try_sync_position r r s).1) st = st ∧
    qs.foldl (fun s r => (move_to_closest_timestamp r s).1) st = st := by
  refine ⟨try_sync_noop st H p1 p2, move_to_closest_noop st H q, ?_, ?_⟩
  · induction ps with
    | nil => rfl
    | cons r rs ih =>
      rw [List.foldl_cons, show (try_sync_position r r st).1 = st from
        by rw [try_sync_noop st H r r]]
      exact ih
  · induction qs with
    | nil => rfl
    | cons r rs ih =>
      rw [List.foldl_cons, move_to_closest_noop st H r]
      exact ih

/-- Witness for C3 on a two-line document with no timestamps, ticked at
positions 1 and -2 (and 4 and -5 for the periodic call). -/
theorem sync_no_timestamps_witness :
    try_sync_position 5 3 ⟨["hello", ""], 0, false, none, none, false⟩ =
      (⟨["hello", ""], 0, false, none, none, false⟩, some false) ∧
    (move_to_closest_timestamp (-1) ⟨["hello", ""], 0, false, none, none, false⟩).1 =
      ⟨["hello", ""], 0, false, none, none, false⟩ ∧
    List.foldl (fun s r => (try_sync_position r r s).1)
      ⟨["hello", ""], 0, false, none, none, false⟩ [1, -2] =
      ⟨["hello", ""], 0, false, none, none, false⟩ ∧
    List.foldl (fun s r => (move_to_closest_timestamp r s).1)
      ⟨["hello", ""], 0, false, none, none, false⟩ [4, -5] =
      ⟨["hello", ""], 0, false, none, none, false⟩ := by
  refine sync_no_timestamps ⟨["hello", ""], 0, false, none, none, false⟩ ?_ 5 3 (-1) [1, -2] [4, -5]
  intro l hmem
  rcases List.mem_cons.mp hmem with rfl | hmem
  · norm_num [show extract_timestamp "hello" = -1 from rfl]
  · rw [List.mem_singleton] at hmem
    subst hmem
    norm_num [show extract_timestamp "" = -1 from rfl]

/-! ### Claim C4 -/

/-- Core characterisation of a successful add_timestamp: when the
cursor is in range and the cursor line is bracket-well-formed (a
leading `[` is matched by some `]`), the call succeeds, returns True,
sets the modified flag, writes the formatted timestamp at the front of
the cursor line, and advances the cursor; on the last line the document
grows by one trailing empty line that the cursor then points at, and
otherwise the length is unchanged. -/
lemma add_timestamp_success (p : ℚ) (st : LRCEditor) (h : st.current_line < st.lines.length)
    (hwf : startsLB (st.lines.get ⟨st.current_line, h⟩) = true →
      (afterChar ']' (st.lines.get ⟨st.current_line, h⟩).data).isSome = true) :
    ∃ stp rest, add_timestamp (some p) st = some (stp, true) ∧
      stp.modified = true ∧
      stp.current_line = st.current_line + 1 ∧
      stp.lines[st.current_line]? = some (format_timestamp p ++ rest) ∧
      (st.current_line + 1 = st.lines.length →
        stp.lines.length = st.lines.length + 1 ∧ stp.lines.getLast? = some "" ∧
        stp.current_line = stp.lines.length - 1) ∧
      (st.current_line + 1 < st.lines.length → stp.lines.length = st.lines.length) := by
  obtain ⟨rest, hw⟩ : ∃ rest,
      add_timestamp_write (format_timestamp p) (st.lines.get ⟨st.current_line, h⟩) =
        some (format_timestamp p ++ rest) := by
    by_cases hsl : startsLB (st.lines.get ⟨st.current_line, h⟩) = true
    · obtain ⟨r, hr⟩ := Option.isSome_iff_exists.mp (hwf hsl)
      refine ⟨String.mk r, ?_⟩
      rw [add_timestamp_write, if_pos hsl, hr, add_timestamp_write_bracket]
    · refine ⟨st.lines.get ⟨st.current_line, h⟩, ?_⟩
      rw [add_timestamp_write, if_neg hsl]
  simp only [add_timestamp, dif_pos h, hw, add_timestamp_finish, add_timestamp_advance]
  by_cases hlast : st.current_line + 1 = st.lines.length
  · rw [if_neg (by simp only [List.length_set]; omega)]
    refine ⟨_, rest, rfl, rfl, rfl, ?_, ?_, ?_⟩
    · rw [List.getElem?_append_left (by simp only [List.length_set]; omega),
        List.getElem?_set_eq_of_lt _ h]
    · intro _
      refine ⟨by simp [List.length_set], List.getLast?_concat _, ?_⟩
      simp only [List.length_append, List.length_set, List.length_singleton]
      omega
    · intro hcon
      omega
  · rw [if_pos (by simp only [List.length_set]; omega)]
    refine ⟨_, rest, rfl, rfl, rfl, ?_, ?_, ?_⟩
    · rw [List.getElem?_set_eq_of_lt _ h]
    · intro hcon
      exact absurd hcon hlast
    · intro _
      simp [List.length_set]

/-- Counterexample input for C4: a non-empty document whose cursor is
on the last line, which starts with `[` but has no closing `]`.  Here
add_timestamp raises an uncaught `IndexError` (result `none`) instead
of appending a line and returning True. -/
theorem add_timestamp_last_line_cex :
    (⟨["[x"], 0, false, none, none, true⟩ : LRCEditor).lines ≠ [] ∧
    (⟨["[x"], 0, false, none, none, true⟩ : LRCEditor).current_line + 1 =
      (⟨["[x"], 0, false, none, none, true⟩ : LRCEditor).lines.length ∧
    add_timestamp (some 5) ⟨["[x"], 0, false, none, none, true⟩ = none := by
  refine ⟨by decide, by decide, ?_⟩
  rw [show add_timestamp (some 5) ⟨["[x"], 0, false, none, none, true⟩ =
    add_timestamp_finish 5 ⟨["[x"], 0, false, none, none, true⟩
      (add_timestamp_write (format_timestamp 5) "[x") from rfl]
  rw [show add_timestamp_write (format_timestamp 5) "[x" = none from by
    rw [add_timestamp_write, if_pos (by decide),
      show afterChar ']' ("[x".data) = none from by decide, add_timestamp_write_bracket]]
  rw [add_timestamp_finish]

/-- C4 as amended: for every non-empty document whose cursor is in
range and whose cursor line, when it starts with `[`, also contains a
`]`, add_timestamp on the last line grows the document by exactly one
trailing empty line and leaves the cursor on it; off the last line the
length is unchanged and the cursor advances by one. -/
theorem add_timestamp_cursor_advance (p : ℚ) (st : LRCEditor)
    (h : st.current_line < st.lines.length)
    (hwf : startsLB (st.lines.get ⟨st.current_line, h⟩) = true →
      (afterChar ']' (st.lines.get ⟨st.current_line, h⟩).data).isSome = true) :
    ∃ stp, add_timestamp (some p) st = some (stp, true) ∧
      stp.current_line = st.current_line + 1 ∧
      (st.current_line + 1 = st.lines.length →
        stp.lines.length = st.lines.length + 1 ∧ stp.lines.getLast? = some "" ∧
        stp.current_line = stp.lines.length - 1) ∧
      (st.current_line + 1 < st.lines.length → stp.lines.length = st.lines.length) := by
  obtain ⟨stp, rest, h1, h2, h3, h4, h5, h6⟩ := add_timestamp_success p st h hwf
  exact ⟨stp, h1, h3, h5, h6⟩

/-- Witness for the amended C4 on the one-line document ["a"] with the
cursor on the (last) line. -/
theorem add_timestamp_cursor_advance_witness :
    ∃ stp, add_timestamp (some 1) ⟨["a"], 0, false, none, none, true⟩ = some (stp, true) ∧
      stp.current_line = (⟨["a"], 0, false, none, none, true⟩ : LRCEditor).current_line + 1 ∧
      ((⟨["a"], 0, false, none, none, true⟩ : LRCEditor).current_line + 1 =
          (⟨["a"], 0, false, none, none, true⟩ : LRCEditor).lines.length →
        stp.lines.length = (⟨["a"], 0, false, none, none, true⟩ : LRCEditor).lines.length + 1 ∧
        stp.lines.getLast? = some "" ∧ stp.current_line = stp.lines.length - 1) ∧
      ((⟨["a"], 0, false, none, none, true⟩ : LRCEditor).current_line + 1 <
          (⟨["a"], 0, false, none, none, true⟩ : LRCEditor).lines.length →
        stp.lines.length = (⟨["a"], 0, false, none, none, true⟩ : LRCEditor).lines.length) :=
  add_timestamp_cursor_advance 1 ⟨["a"], 0, false, none, none, true⟩ (by decide)
    (by intro hcon; exact absurd hcon (by decide))

/-! ### Claim C5 -/

/-- C5: on a document of length 1 whose single line is empty,
remove_timestamp is a no-op: the whole state (lines, cursor, modified
flag) is returned unchanged; the last remaining line is never removed. -/
theorem remove_timestamp_singleton_noop (st : LRCEditor)
    (hl : st.lines = [""]) (hc : st.current_line = 0) :
    remove_timestamp st = some st := by
  obtain ⟨lines, cl, mo, lt, lv, em⟩ := st
  simp only at hl hc
  subst hl
  subst hc
  rfl

/-- Witness for C5 on the concrete one-line empty document. -/
theorem remove_timestamp_singleton_noop_witness :
    remove_timestamp ⟨[""], 0, false, none, none, true⟩ =
      some ⟨[""], 0, false, none, none, true⟩ :=
  remove_timestamp_singleton_noop ⟨[""], 0, false, none, none, true⟩ rfl rfl

/-! ### Claim C6 -/

/-- Counterexample to C6: the line "[a]b" is non-empty and carries no
valid timestamp (extract_timestamp yields the sentinel -1), yet
remove_timestamp does not leave it unchanged: it strips the bracketed
part, rewriting the document to ["b"] and setting the modified flag,
because the code branches on `startswith('[')` rather than on a valid
timestamp. -/
theorem remove_timestamp_no_ts_cex :
    extract_timestamp "[a]b" = -1 ∧ "[a]b" ≠ "" ∧
    (remove_timestamp ⟨["[a]b"], 0, false, none, none, true⟩).map (fun s => s.lines) =
      some ["b"] ∧
    (remove_timestamp ⟨["[a]b"], 0, false, none, none, true⟩).map (fun s => s.modified) =
      some true := by
  decide

/-- C6 as amended: when the cursor line is non-empty and does not start
with `[` (rather than: has no valid timestamp), remove_timestamp leaves
the entire state unchanged. -/
theorem remove_timestamp_plain_noop (st : LRCEditor) (h : st.current_line < st.lines.length)
    (hne : st.lines.get ⟨st.current_line, h⟩ ≠ "")
    (hnb : startsLB (st.lines.get ⟨st.current_line, h⟩) = false) :
    remove_timestamp st = some st := by
  simp only [remove_timestamp, dif_pos h]
  rw [if_neg hne, if_neg (by rw [hnb]; simp)]

/-- Witness for the amended C6 on the document ["hello"]. -/
theorem remove_timestamp_plain_noop_witness :
    remove_timestamp ⟨["hello"], 0, false, none, none, false⟩ =
      some ⟨["hello"], 0, false, none, none, false⟩ :=
  remove_timestamp_plain_noop ⟨["hello"], 0, false, none, none, false⟩ (by decide)
    (by decide) (by decide)

/-! ### Claim C7 -/

/-- Counterexample to C7: moving the cursor (key `j`) mutates the
cursor field of the document state but does not set the modified flag. -/
theorem move_cursor_modified_cex :
    (move_cursor_down ⟨["a", "b"], 0, false, none, none, true⟩).current_line ≠
      (⟨["a", "b"], 0, false, none, none, true⟩ : LRCEditor).current_line ∧
    (move_cursor_down ⟨["a", "b"], 0, false, none, none, true⟩).modified = false := by
  decide

/-- C7 as amended: the content mutations (add_timestamp and every
mutating branch of remove_timestamp) set the modified flag, while the
cursor-movement operations leave it untouched; the save gate in main
persists exactly when a save was requested and the modified flag is
set. -/
theorem content_mutations_set_modified (p : ℚ) (st st2 : LRCEditor) (r : LRCEditor × Bool) :
    (add_timestamp (some p) st = some r → r.1.modified = true) ∧
    (remove_timestamp st = some st2 → st2 ≠ st → st2.modified = true) ∧
    (move_cursor_down st).modified = st.modified ∧
    (move_cursor_up st).modified = st.modified ∧
    save_gate true st.modified = st.modified ∧
    save_gate false st.modified = false := by
  refine ⟨?_, ?_, rfl, rfl, by simp [save_gate], rfl⟩
  · intro heq
    simp only [add_timestamp] at heq
    by_cases h : st.current_line < st.lines.length
    · rw [dif_pos h] at heq
      cases hw : add_timestamp_write (format_timestamp p) (st.lines.get ⟨st.current_line, h⟩) with
      | none => rw [hw, add_timestamp_finish] at heq; cases heq
      | some nl =>
        rw [hw, add_timestamp_finish] at heq
        have hr := Option.some.inj heq
        rw [add_timestamp_advance] at hr
        split_ifs at hr <;> (rw [← hr])
    · rw [dif_neg h] at heq
      cases heq
  · intro heq hne2
    simp only [remove_timestamp] at heq
    by_cases h : st.current_line < st.lines.length
    · rw [dif_pos h] at heq
      by_cases he : st.lines.get ⟨st.current_line, h⟩ = ""
      · rw [if_pos he] at heq
        by_cases hlen : 1 < st.lines.length
        · rw [if_pos hlen] at heq
          rw [← Option.some.inj heq]
        · rw [if_neg hlen] at heq
          exact absurd (Option.some.inj heq).symm hne2
      · rw [if_neg he] at heq
        by_cases hsl : startsLB (st.lines.get ⟨st.current_line, h⟩) = true
        · rw [if_pos hsl] at heq
          have hr := Option.some.inj heq
          cases hac : afterChar ']' (st.lines.get ⟨st.current_line, h⟩).data with
          | none => rw [hac, remove_strip] at hr; rw [← hr]
          | some rest => rw [hac, remove_strip] at hr; rw [← hr]
        · rw [if_neg hsl] at heq
          exact absurd (Option.some.inj heq).symm hne2
    · rw [dif_neg h] at heq
      cases heq

/-- Witness for the amended C7: the stripping branch of
remove_timestamp on ["[a]b"] produces a changed state whose modified
flag is set. -/
theorem content_mutations_set_modified_witness :
    (⟨["b"], 0, true, none, none, true⟩ : LRCEditor).modified = true :=
  (content_mutations_set_modified 0 ⟨["[a]b"], 0, false, none, none, true⟩
    ⟨["b"], 0, true, none, none, true⟩ (⟨["[a]b"], 0, false, none, none, true⟩, true)).2.1
    (by decide) (by decide)

/-! ### Claim C8 -/

/-- C8 is violated by the code: the mode-toggle reload
(load_lrc_from_current) with the lyric file absent — or existing but
empty — replaces the document by a zero-line list with the cursor at 0,
breaking the at-least-one-line invariant, so the next add_timestamp
dies on an IndexError; by contrast the initial load in main does pad an
empty content list to one empty line. -/
theorem reload_empty_document_bug :
    (load_lrc_from_current (some "song.mp3") none
      ⟨["a"], 0, false, none, none, true⟩).1.lines = [] ∧
    (load_lrc_from_current (some "song.mp3") none
      ⟨["a"], 0, false, none, none, true⟩).1.current_line = 0 ∧
    (load_lrc_from_current (some "song.mp3") (some [])
      ⟨["a"], 0, false, none, none, true⟩).1.lines = [] ∧
    add_timestamp (some 1)
      (load_lrc_from_current (some "song.mp3") none
        ⟨["a"], 0, false, none, none, true⟩).1 = none ∧
    main_load_lines [] = [""] ∧ (main_load_lines []).length = 1 := by
  decide

/-! ### Claim C9 -/

/-- C9: get_player_position returns the -1 sentinel (never an
exception) whenever the playback status is not Playing, the connection
is unusable (no held player and connect fails), or an underlying
property read raises; a numeric position is only ever returned when the
status is Playing and a connection is available. -/
theorem position_query_sentinel (env : PlayerEnv) :
    (env.status ≠ PlaybackStatus.Playing → get_player_position env = -1) ∧
    (env.connected = false ∧ env.connect_ok = false → get_player_position env = -1) ∧
    (env.position_us = none → get_player_position env = -1) ∧
    (env.metadata_ok = false → get_player_position env = -1) ∧
    (get_player_position env ≠ -1 →
      env.status = PlaybackStatus.Playing ∧ (env.connected = true ∨ env.connect_ok = true)) := by
  obtain ⟨c, co, s, pu, mo⟩ := env
  refine ⟨?_, ?_, ?_, ?_, ?_⟩
  · intro hs
    by_cases hA : (c = false ∧ co = false)
    · simp [get_player_position, hA]
    · simp only [get_player_position]
      rw [if_neg (by simpa using hA), if_pos (by simpa using hs)]
  · intro hB
    have h1 : c = false := hB.1
    have h2 : co = false := hB.2
    subst h1
    subst h2
    rfl
  · intro hp
    simp only at hp
    subst hp
    simp only [get_player_position]
    split_ifs <;> rfl
  · intro hmo
    simp only at hmo
    subst hmo
    cases pu with
    | none => simp only [get_player_position]; split_ifs <;> rfl
    | some us =>
      simp only [get_player_position]
      split_ifs with h1 h2 h3
      · rfl
      · rfl
      · exact h3.elim
      · rfl
  · intro hne
    by_cases hA : (c = false ∧ co = false)
    · have h1 : c = false := hA.1
      have h2 : co = false := hA.2
      subst h1
      subst h2
      exact absurd rfl hne
    · by_cases hs : s = PlaybackStatus.Playing
      · refine ⟨hs, ?_⟩
        cases hc : c with
        | true => exact Or.inl rfl
        | false =>
          cases hco : co with
          | true => exact Or.inr rfl
          | false => exact absurd ⟨hc, hco⟩ hA
      · refine absurd ?_ hne
        simp only [get_player_position]
        rw [if_neg (by simpa using hA), if_pos (by simpa using hs)]

/-- Witness for C9: a connected player that is paused yields -1. -/
theorem position_query_sentinel_witness :
    get_player_position ⟨true, true, PlaybackStatus.Paused, some 5000000, true⟩ = -1 :=
  (position_query_sentinel ⟨true, true, PlaybackStatus.Paused, some 5000000, true⟩).1
    (by decide)

/-! ### Claim C10 -/

/-- Counterexample to C10 as universally stated: with the position
query reporting -1 and the cursor line "[oops" (starts with `[`, no
`]`), add_timestamp does not perform the insertion and does not return
True — it dies on the `IndexError` from `split(']', 1)[1]`. -/
theorem add_on_unavailable_cex :
    get_player_position ⟨false, false, PlaybackStatus.Playing, some 0, true⟩ = -1 ∧
    add_timestamp
      (some (get_player_position ⟨false, false, PlaybackStatus.Playing, some 0, true⟩))
      ⟨["[oops"], 0, false, none, none, true⟩ = none :=
  ⟨rfl, rfl⟩

/-- C10 as amended: whenever the position query reports the -1
sentinel and the cursor line is bracket-well-formed, add_timestamp
still performs the insertion — the sentinel is formatted as
"[-1:59.00]" and written onto the cursor line, the modified flag is
set, the cursor advances, and True is returned; the guard only checks
for None, which get_player_position never returns. -/
theorem add_timestamp_on_unavailable (env : PlayerEnv) (st : LRCEditor)
    (hq : get_player_position env = -1)
    (h : st.current_line < st.lines.length)
    (hwf : startsLB (st.lines.get ⟨st.current_line, h⟩) = true →
      (afterChar ']' (st.lines.get ⟨st.current_line, h⟩).data).isSome = true) :
    format_timestamp (get_player_position env) = "[-1:59.00]" ∧
    ∃ stp rest,
      add_timestamp (some (get_player_position env)) st = some (stp, true) ∧
      stp.lines[st.current_line]? = some ("[-1:59.00]" ++ rest) ∧
      stp.modified = true ∧
      stp.current_line = st.current_line + 1 := by
  rw [hq]
  refine ⟨format_timestamp_neg_one, ?_⟩
  obtain ⟨stp, rest, h1, h2, h3, h4, h5, h6⟩ := add_timestamp_success (-1) st h hwf
  rw [format_timestamp_neg_one] at h4
  exact ⟨stp, rest, h1, h4, h2, h3⟩

/-- Witness for the amended C10: a stopped player reports -1 and
add_timestamp on the document ["a"] still inserts "[-1:59.00]". -/
theorem add_timestamp_on_unavailable_witness :
    format_timestamp (get_player_position ⟨true, true, PlaybackStatus.Stopped, some 7, true⟩) =
      "[-1:59.00]" ∧
    ∃ stp rest,
      add_timestamp
        (some (get_player_position ⟨true, true, PlaybackStatus.Stopped, some 7, true⟩))
        ⟨["a"], 0, false, none, none, true⟩ = some (stp, true) ∧
      stp.lines[(0 : ℕ)]? = some ("[-1:59.00]" ++ rest) ∧
      stp.modified = true ∧
      stp.current_line = 0 + 1 :=
  add_timestamp_on_unavailable ⟨true, true, PlaybackStatus.Stopped, some 7, true⟩
    ⟨["a"], 0, false, none, none, true⟩ (by decide) (by decide)
    (by intro hcon; exact absurd hcon (by decide))

end LRC
